import Mathlib

/-!
# token-counter.go: a shallow embedding and its verified properties

The program reads text from standard input and from files, sends it in one
request to a token-counting HTTP endpoint and prints the count.  The model
below follows `token-counter.go` function by function:

* `readStdin`, `readFiles`, `countTokens`, `main` are the four Go functions;
* the operating system, the file system and the network are explicit
  arguments (`Stdin`, `FileSystem`, `Network`), and every effect a property
  talks about (files opened, requests sent) is returned as a trace;
* Go `string` is `String` (the model covers texts and bodies that are valid
  UTF-8), `len` is the UTF-8 byte size, Go `int` is a 64-bit integer kept as
  an `Int` in the range `[-2^63, 2^63)`;
* `json.Unmarshal` of the standard library is modelled for the two target
  types the program decodes into (`TokenResponse`, `APIError`): a scanner
  that accepts exactly the JSON grammar of `encoding/json` (including its
  nesting limit), and the field stores of its decoder.
-/

namespace TokenCounter

/-! ## Go errors -/

/-- Errors returned by `encoding/json`. -/
inductive JsonError
  /-- A `*json.SyntaxError`: the input is not well-formed JSON. -/
  | syntaxError
  /-- A `*json.UnmarshalTypeError` whose `Value` field is `value`. -/
  | unmarshalTypeError (value : String)
  deriving DecidableEq, Repr

/-- A Go `error` value, as far as the program builds one. -/
inductive GoError
  /-- An error whose whole text is `s`: `errors.New(s)`, a `fmt.Errorf`
  without `%w`, or an error of the operating system or the network. -/
  | text (s : String)
  /-- The result of `fmt.Errorf(pre ++ "%w", cause)`. -/
  | wrap (pre : String) (cause : GoError)
  /-- An error of `encoding/json`. -/
  | json (e : JsonError)
  deriving DecidableEq, Repr

deriving instance DecidableEq for Except

/-! ## encoding/json: values and scanner -/

namespace json

/-- A JSON value as the decoder sees it.  A number keeps its literal text,
an object keeps its members in input order, duplicates included. -/
inductive Value
  | null
  | bool (b : Bool)
  | number (lit : List Char)
  | string (s : String)
  | array (items : List Value)
  | object (members : List (String × Value))
  deriving Repr

/-- The nesting limit of the scanner (`maxNestingDepth`). -/
def maxNestingDepth : Nat := 10000

/-- An open container on the scanner's parse stack, with what has been read
of it.  Lists are kept in reverse input order. -/
inductive Frame
  /-- In an object, before a key or between a key and its colon
  (`parseObjectKey`). -/
  | objectKey (members : List (String × Value)) (key : Option String)
  /-- In an object, after a colon or after a member (`parseObjectValue`). -/
  | objectValue (members : List (String × Value)) (key : Option String)
  /-- In an array (`parseArrayValue`). -/
  | arrayValue (items : List Value)
  deriving Repr

/-- The scanner's step state: what the next character is read as. -/
inductive Step
  | beginValue
  | beginValueOrEmpty
  | beginStringOrEmpty
  | beginString
  | endValue
  | endTop
  /-- Inside a string literal: the characters decoded so far (reversed) and a
  pending high surrogate of a `\u` escape. -/
  | inString (acc : List Char) (hi : Option Nat)
  | inStringEsc (acc : List Char) (hi : Option Nat)
  /-- Inside a `\u` escape after `k` hex digits of value `code`. -/
  | inStringEscU (acc : List Char) (hi : Option Nat) (k : Nat) (code : Nat)
  /-- Number states, each with the literal read so far (reversed). -/
  | neg (lit : List Char)
  | zero (lit : List Char)
  | int (lit : List Char)
  | dot (lit : List Char)
  | dot0 (lit : List Char)
  | exp (lit : List Char)
  | expSign (lit : List Char)
  | exp0 (lit : List Char)
  /-- Inside `true`, `false` or `null`: the characters still expected. -/
  | literal (rest : List Char) (v : Value)
  deriving Repr

/-- The scanner with the values built so far. -/
structure Scanner where
  step : Step
  stack : List Frame
  top : Option Value
  deriving Repr

def isSpace (c : Char) : Bool :=
  c == ' ' || c == '\t' || c == '\r' || c == '\n'

def isDigit (c : Char) : Bool := '0' ≤ c && c ≤ '9'

/-- The value of a hexadecimal digit. -/
def hexVal (c : Char) : Option Nat :=
  if '0' ≤ c && c ≤ '9' then some (c.toNat - 48)
  else if 'a' ≤ c && c ≤ 'f' then some (c.toNat - 87)
  else if 'A' ≤ c && c ≤ 'F' then some (c.toNat - 55)
  else none

/-- The replacement character U+FFFD. -/
def replacementChar : Char := Char.ofNat 0xFFFD

/-- A pending high surrogate that found no partner becomes U+FFFD. -/
def flushSurrogate (acc : List Char) (hi : Option Nat) : List Char :=
  match hi with
  | none => acc
  | some _ => replacementChar :: acc

/-- Store the code unit `rr` of a finished `\u` escape when no high surrogate
is pending. -/
def storeUnit (acc : List Char) (rr : Nat) : List Char × Option Nat :=
  if 0xD800 ≤ rr ∧ rr < 0xDC00 then (acc, some rr)
  else if 0xDC00 ≤ rr ∧ rr < 0xE000 then (replacementChar :: acc, none)
  else (Char.ofNat rr :: acc, none)

/-- Store the code unit `rr` of a finished `\u` escape (`unquote`): a high
surrogate followed at once by a low one gives one character, a surrogate
without partner gives U+FFFD. -/
def storeEscU (acc : List Char) (hi : Option Nat) (rr : Nat) : List Char × Option Nat :=
  match hi with
  | some h =>
    if 0xDC00 ≤ rr ∧ rr < 0xE000 then
      (Char.ofNat ((h - 0xD800) * 1024 + (rr - 0xDC00) + 0x10000) :: acc, none)
    else storeUnit (replacementChar :: acc) rr
  | none => storeUnit acc rr

/-- The character a one-letter escape stands for. -/
def escapeChar (c : Char) : Option Char :=
  if c == '"' then some '"'
  else if c == '\\' then some '\\'
  else if c == '/' then some '/'
  else if c == 'b' then some (Char.ofNat 8)
  else if c == 'f' then some (Char.ofNat 12)
  else if c == 'n' then some '\n'
  else if c == 'r' then some '\r'
  else if c == 't' then some '\t'
  else none

/-- A value is complete: hand it to the innermost open container, or make it
the top-level value. -/
def endValueWith (v : Value) (stack : List Frame) : Option Scanner :=
  match stack with
  | [] => some ⟨.endTop, [], some v⟩
  | .objectKey ms none :: rest =>
    match v with
    | .string k => some ⟨.endValue, .objectKey ms (some k) :: rest, none⟩
    | _ => none
  | .objectValue ms (some k) :: rest =>
    some ⟨.endValue, .objectValue ((k, v) :: ms) none :: rest, none⟩
  | .arrayValue items :: rest => some ⟨.endValue, .arrayValue (v :: items) :: rest, none⟩
  | _ => none

/-- Open a container (`pushParseState`): an error beyond the nesting limit. -/
def pushParseState (f : Frame) (stack : List Frame) (next : Step) : Option Scanner :=
  if stack.length + 1 ≤ maxNestingDepth then some ⟨next, f :: stack, none⟩ else none

/-- The scanner after a value (`stateEndValue`, `stateEndTop`). -/
def stateEndValue (s : Scanner) (c : Char) : Option Scanner :=
  match s.step with
  | .endTop => if isSpace c then some s else none
  | .endValue =>
    if isSpace c then some s
    else
      match s.stack with
      | .objectKey ms (some k) :: rest =>
        if c == ':' then some ⟨.beginValue, .objectValue ms (some k) :: rest, none⟩ else none
      | .objectValue ms none :: rest =>
        if c == ',' then some ⟨.beginString, .objectKey ms none :: rest, none⟩
        else if c == '\x7d' then endValueWith (.object ms.reverse) rest
        else none
      | .arrayValue items :: rest =>
        if c == ',' then some ⟨.beginValue, s.stack, none⟩
        else if c == ']' then endValueWith (.array items.reverse) rest
        else none
      | _ => none
  | _ => none

/-- A number literal ends before `c` (`stateEndValue` called from a number
state): the number is complete and `c` is read after it. -/
def endNumber (lit : List Char) (s : Scanner) (c : Char) : Option Scanner :=
  match endValueWith (.number lit.reverse) s.stack with
  | none => none
  | some s1 => stateEndValue s1 c

/-- The start of a value (`stateBeginValue`). -/
def stateBeginValue (s : Scanner) (c : Char) : Option Scanner :=
  if isSpace c then some s
  else if c == '\x7b' then pushParseState (.objectKey [] none) s.stack .beginStringOrEmpty
  else if c == '[' then pushParseState (.arrayValue []) s.stack .beginValueOrEmpty
  else if c == '"' then some { s with step := .inString [] none }
  else if c == '-' then some { s with step := .neg [c] }
  else if c == '0' then some { s with step := .zero [c] }
  else if c == 't' then some { s with step := .literal ['r', 'u', 'e'] (.bool true) }
  else if c == 'f' then some { s with step := .literal ['a', 'l', 's', 'e'] (.bool false) }
  else if c == 'n' then some { s with step := .literal ['u', 'l', 'l'] .null }
  else if '1' ≤ c && c ≤ '9' then some { s with step := .int [c] }
  else none

/-- The start of an object key (`stateBeginString`). -/
def stateBeginString (s : Scanner) (c : Char) : Option Scanner :=
  if isSpace c then some s
  else if c == '"' then some { s with step := .inString [] none }
  else none

/-- After the digits of a number's integer part (`state0`). -/
def state0 (lit : List Char) (s : Scanner) (c : Char) : Option Scanner :=
  if c == '.' then some { s with step := .dot (c :: lit) }
  else if c == 'e' || c == 'E' then some { s with step := .exp (c :: lit) }
  else endNumber lit s c

/-- After the sign of an exponent, or in its place (`stateESign`). -/
def stateESign (lit : List Char) (s : Scanner) (c : Char) : Option Scanner :=
  if isDigit c then some { s with step := .exp0 (c :: lit) } else none

/-- One step of the scanner on the character `c`; `none` is a syntax error. -/
def Scanner.next (s : Scanner) (c : Char) : Option Scanner :=
  match s.step with
  | .beginValue => stateBeginValue s c
  | .beginValueOrEmpty =>
    if isSpace c then some s
    else if c == ']' then
      match s.stack with
      | .arrayValue items :: rest => endValueWith (.array items.reverse) rest
      | _ => none
    else stateBeginValue s c
  | .beginStringOrEmpty =>
    if isSpace c then some s
    else if c == '\x7d' then
      match s.stack with
      | .objectKey ms none :: rest => endValueWith (.object ms.reverse) rest
      | _ => none
    else stateBeginString s c
  | .beginString => stateBeginString s c
  | .endValue => stateEndValue s c
  | .endTop => stateEndValue s c
  | .inString acc hi =>
    if c == '"' then endValueWith (.string (String.mk (flushSurrogate acc hi).reverse)) s.stack
    else if c == '\\' then some { s with step := .inStringEsc acc hi }
    else if c.toNat < 0x20 then none
    else some { s with step := .inString (c :: flushSurrogate acc hi) none }
  | .inStringEsc acc hi =>
    if c == 'u' then some { s with step := .inStringEscU acc hi 0 0 }
    else
      match escapeChar c with
      | some d => some { s with step := .inString (d :: flushSurrogate acc hi) none }
      | none => none
  | .inStringEscU acc hi k code =>
    match hexVal c with
    | none => none
    | some h =>
      if k < 3 then some { s with step := .inStringEscU acc hi (k + 1) (code * 16 + h) }
      else
        let r := storeEscU acc hi (code * 16 + h)
        some { s with step := .inString r.1 r.2 }
  | .neg lit =>
    if c == '0' then some { s with step := .zero (c :: lit) }
    else if '1' ≤ c && c ≤ '9' then some { s with step := .int (c :: lit) }
    else none
  | .zero lit => state0 lit s c
  | .int lit =>
    if isDigit c then some { s with step := .int (c :: lit) } else state0 lit s c
  | .dot lit => if isDigit c then some { s with step := .dot0 (c :: lit) } else none
  | .dot0 lit =>
    if isDigit c then some { s with step := .dot0 (c :: lit) }
    else if c == 'e' || c == 'E' then some { s with step := .exp (c :: lit) }
    else endNumber lit s c
  | .exp lit =>
    if c == '+' || c == '-' then some { s with step := .expSign (c :: lit) }
    else stateESign lit s c
  | .expSign lit => stateESign lit s c
  | .exp0 lit =>
    if isDigit c then some { s with step := .exp0 (c :: lit) } else endNumber lit s c
  | .literal rest v =>
    match rest with
    | [] => none
    | [d] => if c == d then endValueWith v s.stack else none
    | d :: ds => if c == d then some { s with step := .literal ds v } else none

/-- Run the scanner over a list of characters. -/
def Scanner.run (s : Scanner) : List Char → Option Scanner
  | [] => some s
  | c :: cs =>
    match s.next c with
    | none => none
    | some s1 => s1.run cs

/-- The scanner before the first character. -/
def Scanner.init : Scanner := ⟨.beginValue, [], none⟩

/-- The end of the input (`eof`): the scanner is given one space, and must
then have a complete top-level value. -/
def Scanner.eof (s : Scanner) : Option Value :=
  match s.next ' ' with
  | some ⟨.endTop, _, some v⟩ => some v
  | _ => none

/-- The value of a JSON text, `none` when the text is not well-formed
(`checkValid` fails). -/
def parse (data : String) : Option Value :=
  match Scanner.init.run data.data with
  | none => none
  | some s => s.eof

end json

/-! ## encoding/json: decoding into the program's types -/

/-- The Go type `TokenResponse`. -/
structure TokenResponse where
  InputTokens : Int
  deriving DecidableEq, Repr

/-- The anonymous struct type of the field `APIError.Error`. -/
structure APIErrorDetail where
  Message : String
  deriving DecidableEq, Repr

/-- The Go type `APIError`. -/
structure APIError where
  Error : APIErrorDetail
  deriving DecidableEq, Repr

namespace json

/-- Keep the first error of a decode (`saveError`). -/
def saveError (saved : Option JsonError) (e : JsonError) : Option JsonError :=
  match saved with
  | none => some e
  | some e0 => some e0

/-- Case folding of object keys when they are matched with field names: an
ASCII capital becomes its small letter, the Kelvin sign U+212A folds to `k`
and the long s U+017F folds to `s`. -/
def foldRune (c : Char) : Char :=
  if 'A' ≤ c && c ≤ 'Z' then Char.ofNat (c.toNat + 32)
  else if c.toNat = 0x212A then 'k'
  else if c.toNat = 0x017F then 's'
  else c

/-- An object key selects the field with JSON name `name`. -/
def keyMatches (name key : String) : Bool :=
  key.data.map foldRune == name.data.map foldRune

/-- The decimal value of a list of digits. -/
def digitsValue (ds : List Char) : Nat :=
  ds.foldl (fun a c => 10 * a + (c.toNat - 48)) 0

/-- The optional sign in front of the digits of `strconv.ParseInt`: whether
the number is negative, and what follows the sign. -/
def splitSign (s : List Char) : Bool × List Char :=
  match s with
  | '-' :: r => (true, r)
  | '+' :: r => (false, r)
  | r => (false, r)

/-- The function `strconv.ParseInt(s, 10, 64)`: an optional sign and decimal
digits, with a value that fits in 64 bits. -/
def ParseInt (s : List Char) : Option Int :=
  let body := splitSign s
  if body.2.isEmpty || !body.2.all isDigit then none
  else
    let v : Int := if body.1 then -(digitsValue body.2 : Int) else (digitsValue body.2 : Int)
    if -(2 ^ 63 : Int) ≤ v ∧ v < (2 ^ 63 : Int) then some v else none

/-- The `Value` text of the type error for a value that fits no field. -/
def typeErrorOf : Value → JsonError
  | .null => .unmarshalTypeError "null"
  | .bool _ => .unmarshalTypeError "bool"
  | .number _ => .unmarshalTypeError "number"
  | .string _ => .unmarshalTypeError "string"
  | .array _ => .unmarshalTypeError "array"
  | .object _ => .unmarshalTypeError "object"

/-- Decode a value into a field of type `int`: `null` leaves the field, an
integer literal in range is stored, everything else is a type error that
leaves the field. -/
def storeInt (v : Value) (cur : Int) (saved : Option JsonError) : Int × Option JsonError :=
  match v with
  | .null => (cur, saved)
  | .number lit =>
    match ParseInt lit with
    | some n => (n, saved)
    | none => (cur, saveError saved (.unmarshalTypeError ("number " ++ String.mk lit)))
  | other => (cur, saveError saved (typeErrorOf other))

/-- Decode a value into a field of type `string`: `null` leaves the field, a
string is stored, everything else is a type error that leaves the field. -/
def storeString (v : Value) (cur : String) (saved : Option JsonError) :
    String × Option JsonError :=
  match v with
  | .null => (cur, saved)
  | .string s => (s, saved)
  | other => (cur, saveError saved (typeErrorOf other))

/-- Decode the members of an object into a `TokenResponse`, in input order. -/
def storeTokenResponseMembers (ms : List (String × Value)) (t : TokenResponse)
    (saved : Option JsonError) : TokenResponse × Option JsonError :=
  ms.foldl
    (fun acc m =>
      if keyMatches "input_tokens" m.1 then
        let r := storeInt m.2 acc.1.InputTokens acc.2
        ({ acc.1 with InputTokens := r.1 }, r.2)
      else acc)
    (t, saved)

/-- Decode a value into a `TokenResponse`: `null` leaves it, an object is
decoded member by member, everything else is a type error. -/
def storeTokenResponse (v : Value) (t : TokenResponse) (saved : Option JsonError) :
    TokenResponse × Option JsonError :=
  match v with
  | .null => (t, saved)
  | .object ms => storeTokenResponseMembers ms t saved
  | other => (t, saveError saved (typeErrorOf other))

/-- Decode the members of an object into the struct of `APIError.Error`. -/
def storeDetailMembers (ms : List (String × Value)) (d : APIErrorDetail)
    (saved : Option JsonError) : APIErrorDetail × Option JsonError :=
  ms.foldl
    (fun acc m =>
      if keyMatches "message" m.1 then
        let r := storeString m.2 acc.1.Message acc.2
        ({ acc.1 with Message := r.1 }, r.2)
      else acc)
    (d, saved)

/-- Decode a value into the struct of `APIError.Error`. -/
def storeDetail (v : Value) (d : APIErrorDetail) (saved : Option JsonError) :
    APIErrorDetail × Option JsonError :=
  match v with
  | .null => (d, saved)
  | .object ms => storeDetailMembers ms d saved
  | other => (d, saveError saved (typeErrorOf other))

/-- Decode the members of an object into an `APIError`. -/
def storeAPIErrorMembers (ms : List (String × Value)) (a : APIError)
    (saved : Option JsonError) : APIError × Option JsonError :=
  ms.foldl
    (fun acc m =>
      if keyMatches "error" m.1 then
        let r := storeDetail m.2 acc.1.Error acc.2
        ({ acc.1 with Error := r.1 }, r.2)
      else acc)
    (a, saved)

/-- Decode a value into an `APIError`. -/
def storeAPIError (v : Value) (a : APIError) (saved : Option JsonError) :
    APIError × Option JsonError :=
  match v with
  | .null => (a, saved)
  | .object ms => storeAPIErrorMembers ms a saved
  | other => (a, saveError saved (typeErrorOf other))

/-- The call `json.Unmarshal(data, &t)` for `t` of type `TokenResponse`: the
new value of `t` and the returned error. -/
def UnmarshalTokenResponse (data : String) (t : TokenResponse) :
    TokenResponse × Option JsonError :=
  match parse data with
  | none => (t, some .syntaxError)
  | some v => storeTokenResponse v t none

/-- The call `json.Unmarshal(data, &a)` for `a` of type `APIError`. -/
def UnmarshalAPIError (data : String) (a : APIError) : APIError × Option JsonError :=
  match parse data with
  | none => (a, some .syntaxError)
  | some v => storeAPIError v a none

end json

/-! ## The program -/

def apiURL : String := "https://api.anthropic.com/v1/messages/count_tokens"
def apiVersion : String := "2023-06-01"
/-- The timeout of the HTTP client, in seconds. -/
def apiTimeout : Nat := 10

/-- The Go type `Message`. -/
structure Message where
  Role : String
  Content : String
  deriving DecidableEq, Repr

/-- The Go type `TokenRequest`. -/
structure TokenRequest where
  Model : String
  Messages : List Message
  deriving DecidableEq, Repr

/-- The request handed to `client.Do`.  The body is `json.Marshal(payload)`;
the model keeps the marshalled value itself. -/
structure HTTPRequest where
  method : String
  url : String
  header : List (String × String)
  payload : TokenRequest
  timeout : Nat
  deriving DecidableEq, Repr

/-- What `client.Do` returns without error: `resp.StatusCode`, `resp.Status`
and the outcome of `io.ReadAll(resp.Body)`. -/
structure HTTPResponse where
  StatusCode : Int
  Status : String
  Body : Except GoError String

/-- The remote side: the outcome of `client.Do` for each request. -/
abbrev Network := HTTPRequest → Except GoError HTTPResponse

def StatusOK : Int := 200

/-- The result of `countTokens`: the two Go results and the requests sent. -/
structure CountResult where
  count : Int
  err : Option GoError
  sent : List HTTPRequest
  deriving DecidableEq, Repr

/-- The request `countTokens` builds and sends: the payload `reqBody`, the
method and URL of `http.NewRequest`, the three headers, and the timeout of
the client. -/
def newRequest (text apiKey model : String) : HTTPRequest :=
  { method := "POST", url := apiURL
    header := [("x-api-key", apiKey), ("anthropic-version", apiVersion),
               ("content-type", "application/json")]
    payload := { Model := model, Messages := [{ Role := "user", Content := text }] }
    timeout := apiTimeout }

/-- The function `countTokens(text, apiKey, model)`.  `json.Marshal` of a
`TokenRequest` and `http.NewRequest` with the fixed method and URL cannot
fail, so their error branches are absent. -/
def countTokens (net : Network) (text apiKey model : String) : CountResult :=
  if text = "" then ⟨0, some (.text "empty input text"), []⟩
  else
    let req := newRequest text apiKey model
    match net req with
    | .error e => ⟨0, some (.wrap "error sending request: " e), [req]⟩
    | .ok resp =>
      match resp.Body with
      | .error e => ⟨0, some (.wrap "error reading response: " e), [req]⟩
      | .ok body =>
        if resp.StatusCode ≠ StatusOK then
          let r := json.UnmarshalAPIError body ⟨⟨""⟩⟩
          if r.2 = none ∧ r.1.Error.Message ≠ "" then
            ⟨0, some (.text ("API error: " ++ r.1.Error.Message)), [req]⟩
          else ⟨0, some (.text ("API error: " ++ resp.Status)), [req]⟩
        else
          let r := json.UnmarshalTokenResponse body ⟨0⟩
          match r.2 with
          | some e => ⟨0, some (.wrap "error parsing response: " (.json e)), [req]⟩
          | none => ⟨r.1.InputTokens, none, [req]⟩

/-- Standard input as the program finds it. -/
inductive Stdin
  /-- The call `os.Stdin.Stat()` fails. -/
  | statError (e : GoError)
  /-- Standard input is a character device: nothing is piped. -/
  | terminal
  /-- Standard input is piped; `data` is the outcome of reading it all. -/
  | piped (data : Except GoError String)

/-- The function `readStdin()`. -/
def readStdin (stdin : Stdin) : String × Option GoError :=
  match stdin with
  | .statError e => ("", some (.wrap "error checking stdin: " e))
  | .terminal => ("", none)
  | .piped (.error e) => ("", some (.wrap "error reading from stdin: " e))
  | .piped (.ok data) => (data, none)

/-- The function `strings.Join(elems, sep)`. -/
def Join (elems : List String) (sep : String) : String :=
  match elems with
  | [] => ""
  | [e] => e
  | e :: rest => rest.foldl (fun b s => b ++ sep ++ s) e

/-- The file system: the outcome of `os.ReadFile` for each path. -/
abbrev FileSystem := String → Except GoError String

/-- The result of `readFiles`: the two Go results and the paths handed to
`os.ReadFile`, in order. -/
structure ReadResult where
  text : String
  err : Option GoError
  reads : List String
  deriving DecidableEq, Repr

/-- The loop of `readFiles`: `texts` and `reads` are what has been collected
and opened before `paths`. -/
def readFilesLoop (fs : FileSystem) (paths : List String) (texts : List String)
    (reads : List String) : ReadResult :=
  match paths with
  | [] => ⟨Join texts "\n", none, reads⟩
  | path :: more =>
    match fs path with
    | .error e => ⟨"", some (.wrap ("error reading file " ++ path ++ ": ") e), reads ++ [path]⟩
    | .ok data => readFilesLoop fs more (texts ++ [data]) (reads ++ [path])

/-- The function `readFiles(paths)`. -/
def readFiles (fs : FileSystem) (paths : List String) : ReadResult :=
  readFilesLoop fs paths [] []

/-- What the program is started with: the values of the flags after
`flag.Parse()`, the environment variable, and the outside world. -/
structure Env where
  /-- The positional arguments, `flag.Args()`. -/
  args : List String
  /-- The value of `--model`. -/
  model : String
  /-- The value of `--verbose`. -/
  verbose : Bool
  /-- The value of `ANTHROPIC_API_KEY`. -/
  apiKey : String
  fs : FileSystem
  stdin : Stdin
  net : Network

/-- How the process ends. -/
inductive Outcome
  /-- A call of `log.Fatal(msg)` or `log.Fatalf(msg ++ "%v", err)`: the message
  goes to standard error and the exit status is 1. -/
  | fatal (msg : String) (err : Option GoError)
  /-- The function `main` returns after writing `stdout`. -/
  | done (stdout : String)
  deriving DecidableEq, Repr

/-- A run of `main`: how it ends, the files handed to `os.ReadFile`, the value
of the variable `text` once it has been assigned, and the requests sent. -/
structure Run where
  outcome : Outcome
  reads : List String
  text : Option String
  sent : List HTTPRequest
  deriving DecidableEq, Repr

/-- The definition of `model` in `main`: the default of the flag. -/
def defaultModel : String := "claude-3-sonnet-20240229"

/-- The input stage of `main`: `readFiles` when there are arguments, then
`readStdin`, then `text = pipedInput + fileInput`.  The result is the text,
or the fatal outcome of a failed read, with the files opened. -/
def gatherInput (env : Env) : Except Outcome String × List String :=
  let files : ReadResult :=
    if env.args.length > 0 then readFiles env.fs env.args else ⟨"", none, []⟩
  match files.err with
  | some e => (.error (.fatal "Error reading file input: " (some e)), files.reads)
  | none =>
    match readStdin env.stdin with
    | (_, some e) => (.error (.fatal "Error reading piped input: " (some e)), files.reads)
    | (pipedInput, none) => (.ok (pipedInput ++ files.text), files.reads)

/-- The output stage of `main`: the lines written by `fmt.Printf`. -/
def report (verbose : Bool) (model text : String) (count : Int) : String :=
  (if verbose then
    "Model: " ++ model ++ "\n" ++
    "Input length: " ++ toString text.utf8ByteSize ++ " characters\n"
  else "") ++
  "Token count: " ++ toString count ++ "\n"

/-- The function `main()`. -/
def main (env : Env) : Run :=
  if env.apiKey = "" then
    ⟨.fatal "Missing Anthropic API key. Set ANTHROPIC_API_KEY environment variable." none,
      [], none, []⟩
  else
    match gatherInput env with
    | (.error out, reads) => ⟨out, reads, none, []⟩
    | (.ok text, reads) =>
      if text = "" then
        ⟨.fatal "Error: No input provided. Pipe text via stdin and/or provide file paths" none,
          reads, some text, []⟩
      else
        let r := countTokens env.net text env.apiKey env.model
        match r.err with
        | some e => ⟨.fatal "Error counting tokens: " (some e), reads, some text, r.sent⟩
        | none => ⟨.done (report env.verbose env.model text r.count), reads, some text, r.sent⟩

/-! ## Specification-side definitions and sample inputs -/

namespace json

/-- A character that stands for itself inside a string literal. -/
def isPlain (c : Char) : Bool := c != '"' && c != '\\' && !(c.toNat < 0x20)

/-- The success body of the wire protocol for the count `n`. -/
def successBody (n : Nat) : String :=
  "\x7b\"input_tokens\": " ++ toString n ++ "\x7d"

/-- The error body of the wire protocol for the message `m`, written without
escapes. -/
def errorBody (m : String) : String :=
  "\x7b\"error\":\x7b\"message\":\"" ++ m ++ "\"\x7d\x7d"

/-- The integer an object member gives to the field `InputTokens`: the member
is named `input_tokens` (up to case) and its value is an integer literal that
fits in 64 bits. -/
def memberInt (m : String × Value) : Option Int :=
  if keyMatches "input_tokens" m.1 then
    match m.2 with
    | .number lit => ParseInt lit
    | _ => none
  else none

/-- A member the decoder accepts: it is not named `input_tokens`, or its
value is `null`, or it gives an integer. -/
def memberAccepted (m : String × Value) : Prop :=
  keyMatches "input_tokens" m.1 = true → (m.2 = .null ∨ (memberInt m).isSome = true)

/-- The count an object stands for: the integer of its last `input_tokens`
member that gives one, and 0 when there is none. -/
def lastInputTokens (ms : List (String × Value)) : Int :=
  ((ms.filterMap memberInt).getLast?).getD 0

end json

/-- The files of a list joined as the specification words it: a single
newline between consecutive files, nothing before the first or after the
last. -/
def joinedByNewline : List String → String
  | [] => ""
  | [c] => c
  | c :: d :: rest => c ++ "\n" ++ joinedByNewline (d :: rest)

/-- What follows the first file in `joinedByNewline`. -/
def newlineTail : List String → String
  | [] => ""
  | c :: rest => "\n" ++ c ++ newlineTail rest

/-- A sample network: every request is answered with the given status code,
status line and body. -/
def constNetwork (code : Int) (status body : String) : Network :=
  fun _ => .ok ⟨code, status, .ok body⟩

/-- A sample file system: the listed paths are readable with the listed
contents, every other path does not exist. -/
def listFS (files : List (String × String)) : FileSystem :=
  fun path =>
    match files.lookup path with
    | some c => .ok c
    | none => .error (.text ("open " ++ path ++ ": no such file or directory"))

/-- The message of the fatal error for an empty input. -/
def noInputMessage : String :=
  "Error: No input provided. Pipe text via stdin and/or provide file paths"

/-- A sample run: "Hello " is piped and the one file argument holds "world". -/
def helloEnv : Env :=
  { args := ["w.txt"], model := defaultModel, verbose := false, apiKey := "key"
    fs := listFS [("w.txt", "world")], stdin := .piped (.ok "Hello ")
    net := constNetwork 200 "200 OK" "\x7b\"input_tokens\": 2\x7d" }

/-- A sample run: nothing is piped and two empty files are named. -/
def twoEmptyFilesEnv : Env :=
  { args := ["a.txt", "b.txt"], model := defaultModel, verbose := false, apiKey := "key"
    fs := listFS [("a.txt", ""), ("b.txt", "")], stdin := .terminal
    net := constNetwork 200 "200 OK" "\x7b\"input_tokens\": 1\x7d" }

/-- A sample run: nothing is piped, no file is named, the API key is set. -/
def noInputEnv : Env :=
  { args := [], model := defaultModel, verbose := false, apiKey := "key"
    fs := listFS [], stdin := .terminal
    net := constNetwork 200 "200 OK" "\x7b\"input_tokens\": 1\x7d" }

/-- A sample run: nothing is piped, no file is named, the API key is not
set. -/
def noKeyEnv : Env :=
  { args := [], model := defaultModel, verbose := false, apiKey := ""
    fs := listFS [], stdin := .terminal
    net := constNetwork 200 "200 OK" "\x7b\"input_tokens\": 1\x7d" }

/-- A sample run in verbose mode: the one-character text "é" is piped and the
service counts 7 tokens. -/
def verboseEnv : Env :=
  { args := [], model := "m", verbose := true, apiKey := "key"
    fs := listFS [], stdin := .piped (.ok "é")
    net := constNetwork 200 "200 OK" "\x7b\"input_tokens\": 7\x7d" }

/-! ## Properties -/

/-! ### Shapes of `countTokens` -/

lemma countTokens_empty (net : Network) (apiKey model : String) :
    countTokens net "" apiKey model = ⟨0, some (.text "empty input text"), []⟩ := by
  simp [countTokens]

lemma countTokens_response (net : Network) (text apiKey model : String) (resp : HTTPResponse)
    (body : String) (ht : text ≠ "")
    (hnet : net (newRequest text apiKey model) = .ok resp) (hb : resp.Body = .ok body) :
    countTokens net text apiKey model =
      if resp.StatusCode ≠ StatusOK then
        if (json.UnmarshalAPIError body ⟨⟨""⟩⟩).2 = none ∧
            (json.UnmarshalAPIError body ⟨⟨""⟩⟩).1.Error.Message ≠ "" then
          ⟨0, some (.text ("API error: " ++ (json.UnmarshalAPIError body ⟨⟨""⟩⟩).1.Error.Message)),
            [newRequest text apiKey model]⟩
        else ⟨0, some (.text ("API error: " ++ resp.Status)), [newRequest text apiKey model]⟩
      else
        match (json.UnmarshalTokenResponse body ⟨0⟩).2 with
        | some e =>
          ⟨0, some (.wrap "error parsing response: " (.json e)), [newRequest text apiKey model]⟩
        | none =>
          ⟨(json.UnmarshalTokenResponse body ⟨0⟩).1.InputTokens, none,
            [newRequest text apiKey model]⟩ := by
  unfold countTokens
  rw [if_neg ht]
  simp only [hnet, hb]

lemma countTokens_sent_subset (net : Network) (text apiKey model : String) :
    (countTokens net text apiKey model).sent = [] ∨
      (text ≠ "" ∧ (countTokens net text apiKey model).sent = [newRequest text apiKey model]) := by
  by_cases h : text = ""
  · left; subst h; rw [countTokens_empty]
  · right
    refine ⟨h, ?_⟩
    unfold countTokens
    rw [if_neg h]
    simp only []
    cases net (newRequest text apiKey model) with
    | error e => rfl
    | ok resp =>
      simp only []
      cases resp.Body with
      | error e => rfl
      | ok body =>
        simp only []
        split
        · split <;> rfl
        · split <;> rfl

/-! ### `strings.Join` and the loop of `readFiles` -/

lemma foldl_join_newline (rest : List String) (e : String) :
    rest.foldl (fun b s => b ++ "\n" ++ s) e = e ++ newlineTail rest := by
  induction rest generalizing e with
  | nil => simp [newlineTail]
  | cons c rest ih =>
    rw [List.foldl_cons, ih]
    simp [newlineTail, String.append_assoc]

lemma joinedByNewline_cons (c : String) (rest : List String) :
    joinedByNewline (c :: rest) = c ++ newlineTail rest := by
  induction rest generalizing c with
  | nil => simp [joinedByNewline, newlineTail]
  | cons d rest ih =>
    rw [joinedByNewline, ih]
    simp [newlineTail, String.append_assoc]

lemma Join_newline (cs : List String) : Join cs "\n" = joinedByNewline cs := by
  match cs with
  | [] => rfl
  | [c] => rfl
  | c :: d :: rest =>
    rw [joinedByNewline_cons]
    simp only [Join]
    exact foldl_join_newline (d :: rest) c

lemma readFilesLoop_readable (fs : FileSystem) (paths : List String) (cs : List String)
    (h : List.Forall₂ (fun path c => fs path = .ok c) paths cs) (texts reads : List String) :
    readFilesLoop fs paths texts reads = ⟨Join (texts ++ cs) "\n", none, reads ++ paths⟩ := by
  induction h generalizing texts reads with
  | nil => simp [readFilesLoop]
  | cons hp _ ih =>
    rw [readFilesLoop]
    simp only [hp]
    rw [ih]
    simp

lemma readFilesLoop_unreadable (fs : FileSystem) (pre post : List String) (bad : String)
    (e : GoError) (hpre : ∀ p ∈ pre, ∃ c, fs p = .ok c) (hbad : fs bad = .error e)
    (texts reads : List String) :
    readFilesLoop fs (pre ++ bad :: post) texts reads =
      ⟨"", some (.wrap ("error reading file " ++ bad ++ ": ") e), reads ++ pre ++ [bad]⟩ := by
  induction pre generalizing texts reads with
  | nil =>
    rw [List.nil_append, readFilesLoop]
    simp only [hbad]
    simp
  | cons p pre ih =>
    obtain ⟨c, hc⟩ := hpre p (List.mem_cons_self _ _)
    rw [List.cons_append, readFilesLoop]
    simp only [hc]
    rw [ih (fun q hq => hpre q (List.mem_cons_of_mem _ hq))]
    simp

lemma readable_forall₂ (fs : FileSystem) (paths : List String)
    (h : ∀ p ∈ paths, ∃ c, fs p = .ok c) :
    ∃ cs, List.Forall₂ (fun path c => fs path = .ok c) paths cs := by
  induction paths with
  | nil => exact ⟨[], List.Forall₂.nil⟩
  | cons p paths ih =>
    obtain ⟨c, hc⟩ := h p (List.mem_cons_self _ _)
    obtain ⟨cs, hcs⟩ := ih (fun q hq => h q (List.mem_cons_of_mem _ hq))
    exact ⟨c :: cs, List.Forall₂.cons hc hcs⟩

lemma gatherInput_readable (env : Env) (p : String) (cs : List String)
    (hstdin : readStdin env.stdin = (p, none))
    (hfiles : List.Forall₂ (fun path c => env.fs path = .ok c) env.args cs) :
    gatherInput env = (.ok (p ++ joinedByNewline cs), env.args) := by
  unfold gatherInput
  by_cases hlen : env.args.length > 0
  · simp only [hlen, if_true, readFiles]
    rw [readFilesLoop_readable env.fs env.args cs hfiles]
    simp only [hstdin, List.nil_append, Join_newline]
  · have hnil : env.args = [] := by
      cases hargs : env.args with
      | nil => rfl
      | cons a as => rw [hargs] at hlen; simp at hlen
    rw [hnil] at hfiles
    cases hfiles
    simp [hnil, hstdin, joinedByNewline]

/-! ### The scanner on digits and on plain characters -/

namespace json

lemma Scanner.run_append (s : Scanner) (xs ys : List Char) :
    s.run (xs ++ ys) = (s.run xs).bind (fun s1 => s1.run ys) := by
  induction xs generalizing s with
  | nil => rfl
  | cons c xs ih =>
    simp only [List.cons_append, Scanner.run]
    cases s.next c with
    | none => rfl
    | some s1 => exact ih s1

lemma isDigit_bounds (c : Char) (h : isDigit c = true) : 48 ≤ c.toNat ∧ c.toNat ≤ 57 := by
  simp only [isDigit, Bool.and_eq_true, decide_eq_true_eq] at h
  obtain ⟨h1, h2⟩ := h
  rw [Char.le_def] at h1 h2
  exact ⟨h1, h2⟩

lemma isDigit_cases (c : Char) (h : isDigit c = true) :
    c ∈ ['0', '1', '2', '3', '4', '5', '6', '7', '8', '9'] := by
  obtain ⟨h1, h2⟩ := isDigit_bounds c h
  have hc : c = Char.ofNat c.toNat := (Char.ofNat_toNat c).symm
  generalize c.toNat = n at *
  subst hc
  interval_cases n <;> decide

lemma next_int_digit (c : Char) (h : isDigit c = true) (lit : List Char)
    (stack : List Frame) (top : Option Value) :
    Scanner.next ⟨.int lit, stack, top⟩ c = some ⟨.int (c :: lit), stack, top⟩ := by
  simp [Scanner.next, h]

lemma run_int_digits (ds : List Char) (h : ∀ c ∈ ds, isDigit c = true) (lit : List Char)
    (stack : List Frame) (top : Option Value) :
    Scanner.run ⟨.int lit, stack, top⟩ ds = some ⟨.int (ds.reverse ++ lit), stack, top⟩ := by
  induction ds generalizing lit with
  | nil => rfl
  | cons c ds ih =>
    rw [Scanner.run, next_int_digit c (h c (List.mem_cons_self _ _))]
    simp only []
    rw [ih (fun d hd => h d (List.mem_cons_of_mem _ hd))]
    simp

lemma next_inString_plain (c : Char) (h : isPlain c = true) (acc : List Char)
    (stack : List Frame) (top : Option Value) :
    Scanner.next ⟨.inString acc none, stack, top⟩ c =
      some ⟨.inString (c :: acc) none, stack, top⟩ := by
  simp only [isPlain, Bool.and_eq_true, bne_iff_ne, ne_eq, Bool.not_eq_true',
    decide_eq_false_iff_not] at h
  obtain ⟨⟨h1, h2⟩, h3⟩ := h
  simp [Scanner.next, h1, h2, h3, flushSurrogate]

lemma run_inString_plain (cs : List Char) (h : ∀ c ∈ cs, isPlain c = true) (acc : List Char)
    (stack : List Frame) (top : Option Value) :
    Scanner.run ⟨.inString acc none, stack, top⟩ cs =
      some ⟨.inString (cs.reverse ++ acc) none, stack, top⟩ := by
  induction cs generalizing acc with
  | nil => rfl
  | cons c cs ih =>
    rw [Scanner.run, next_inString_plain c (h c (List.mem_cons_self _ _))]
    simp only []
    rw [ih (fun d hd => h d (List.mem_cons_of_mem _ hd))]
    simp

/-! ### Decimal numerals -/

lemma digitsValue_snoc (ds : List Char) (d : Char) :
    digitsValue (ds ++ [d]) = 10 * digitsValue ds + (d.toNat - 48) := by
  simp [digitsValue, List.foldl_append]

lemma digitChar_spec (k : Nat) (h : k < 10) :
    isDigit (Nat.digitChar k) = true ∧ (Nat.digitChar k).toNat - 48 = k ∧
      (k ≠ 0 → Nat.digitChar k ≠ '0') := by
  interval_cases k <;> decide

/-- The numeral of a positive number: decimal digits, the first not zero,
with the number as value. -/
lemma toDigitsCore_spec (fuel : Nat) :
    ∀ (n : Nat) (acc : List Char), 0 < n → n < fuel →
      ∃ d ds, Nat.toDigitsCore 10 fuel n acc = d :: ds ++ acc ∧ isDigit d = true ∧ d ≠ '0' ∧
        (∀ c ∈ ds, isDigit c = true) ∧ digitsValue (d :: ds) = n := by
  induction fuel with
  | zero => intro n acc _ hf; omega
  | succ fuel ih =>
    intro n acc hn hf
    obtain ⟨hdig, hval, hnz⟩ := digitChar_spec (n % 10) (Nat.mod_lt _ (by decide))
    by_cases hq : n / 10 = 0
    · have hlt : n < 10 := by omega
      have hmod : n % 10 = n := Nat.mod_eq_of_lt hlt
      refine ⟨Nat.digitChar (n % 10), [], ?_, hdig, hnz (by omega), by simp, ?_⟩
      · simp [Nat.toDigitsCore, hq]
      · simp only [digitsValue, List.foldl_cons, List.foldl_nil]
        omega
    · obtain ⟨d, ds, heq, hd, hd0, hds, hv⟩ :=
        ih (n / 10) (Nat.digitChar (n % 10) :: acc) (by omega) (by omega)
      refine ⟨d, ds ++ [Nat.digitChar (n % 10)], ?_, hd, hd0, ?_, ?_⟩
      · simp [Nat.toDigitsCore, hq, heq]
      · intro c hc
        rcases List.mem_append.mp hc with h | h
        · exact hds c h
        · rw [List.mem_singleton.mp h]; exact hdig
      · rw [← List.cons_append, digitsValue_snoc, hv]
        omega

lemma toString_nat_spec (n : Nat) (hn : 0 < n) :
    ∃ d ds, (toString n).data = d :: ds ∧ isDigit d = true ∧ d ≠ '0' ∧
      (∀ c ∈ ds, isDigit c = true) ∧ digitsValue (d :: ds) = n := by
  obtain ⟨d, ds, heq, h⟩ := toDigitsCore_spec (n + 1) n [] hn (by omega)
  refine ⟨d, ds, ?_, h⟩
  have : (toString n).data = Nat.toDigits 10 n := rfl
  rw [this, Nat.toDigits, heq]
  simp

lemma ParseInt_digits (d : Char) (ds : List Char) (hd : isDigit d = true)
    (hds : ∀ c ∈ ds, isDigit c = true) (hv : digitsValue (d :: ds) < 2 ^ 63) :
    ParseInt (d :: ds) = some (digitsValue (d :: ds) : Int) := by
  have hall : (d :: ds).all isDigit = true := by
    simp only [List.all_eq_true]
    intro c hc
    rcases List.mem_cons.mp hc with h | h
    · rw [h]; exact hd
    · exact hds c h
  have hdm := isDigit_cases d hd
  have hbody : splitSign (d :: ds) = (false, d :: ds) := by
    simp only [List.mem_cons, List.mem_singleton, List.not_mem_nil, or_false] at hdm
    rcases hdm with h | h | h | h | h | h | h | h | h | h <;> subst h <;> rfl
  unfold ParseInt
  simp only [hbody, hall]
  have h1 : (digitsValue (d :: ds) : Int) < 2 ^ 63 := by exact_mod_cast hv
  have h2 : -(2 ^ 63 : Int) ≤ (digitsValue (d :: ds) : Int) := by
    have : (0 : Int) ≤ (digitsValue (d :: ds) : Int) := Int.natCast_nonneg _
    omega
  simp only [List.isEmpty_cons, Bool.not_true, Bool.or_self, Bool.false_eq_true, if_false]
  rw [if_pos ⟨h2, h1⟩]

lemma ParseInt_range (s : List Char) (v : Int) (h : ParseInt s = some v) :
    -(2 ^ 63 : Int) ≤ v ∧ v < 2 ^ 63 := by
  unfold ParseInt at h
  generalize splitSign s = body at h
  simp only [] at h
  generalize (if body.1 = true then -(digitsValue body.2 : Int) else (digitsValue body.2 : Int))
    = w at h
  by_cases hbad : (body.2.isEmpty || !body.2.all isDigit) = true
  · rw [if_pos hbad] at h; exact absurd h (by simp)
  · rw [if_neg hbad] at h
    by_cases hr : -(2 ^ 63 : Int) ≤ w ∧ w < 2 ^ 63
    · rw [if_pos hr] at h
      have hw : w = v := Option.some.inj h
      rw [← hw]
      exact hr
    · rw [if_neg hr] at h; exact absurd h (by simp)

/-! ### The two bodies of the wire protocol -/

lemma run_success_prefix :
    Scanner.init.run "\x7b\"input_tokens\": ".data =
      some ⟨.beginValue, [.objectValue [] (some "input_tokens")], none⟩ := by
  rfl

lemma next_first_digit (d : Char) (hd : isDigit d = true) (hd0 : d ≠ '0')
    (stack : List Frame) :
    Scanner.next ⟨.beginValue, stack, none⟩ d = some ⟨.int [d], stack, none⟩ := by
  have hdm := isDigit_cases d hd
  simp only [List.mem_cons, List.mem_singleton, List.not_mem_nil, or_false] at hdm
  rcases hdm with h | h | h | h | h | h | h | h | h | h <;> subst h
  · exact absurd rfl hd0
  all_goals rfl

lemma run_close_number (lit : List Char) (key : String) :
    Scanner.run ⟨.int lit, [.objectValue [] (some key)], none⟩ "\x7d".data =
      some ⟨.endTop, [], some (.object [(key, .number lit.reverse)])⟩ := by
  rfl

lemma eof_endTop (v : Value) : Scanner.eof ⟨.endTop, [], some v⟩ = some v := by
  rfl

lemma run_numeral_member (d : Char) (ds : List Char) (hd : isDigit d = true) (hd0 : d ≠ '0')
    (hds : ∀ c ∈ ds, isDigit c = true) (pre post : List Char)
    (hpre : Scanner.init.run pre =
      some ⟨.beginValue, [.objectValue [] (some "input_tokens")], none⟩)
    (hpost : post = "\x7d".data) :
    Scanner.init.run (pre ++ (d :: ds) ++ post) =
      some ⟨.endTop, [], some (.object [("input_tokens", .number (d :: ds))])⟩ := by
  rw [Scanner.run_append, Scanner.run_append, hpre, Option.some_bind, Scanner.run,
    next_first_digit d hd hd0]
  simp only []
  rw [run_int_digits ds hds, Option.some_bind, hpost, run_close_number]
  simp

lemma parse_numeral_member (d : Char) (ds : List Char) (hd : isDigit d = true) (hd0 : d ≠ '0')
    (hds : ∀ c ∈ ds, isDigit c = true) :
    parse (String.mk ("\x7b\"input_tokens\": ".data ++ (d :: ds) ++ "\x7d".data)) =
      some (.object [("input_tokens", .number (d :: ds))]) := by
  unfold parse
  rw [run_numeral_member d ds hd hd0 hds _ _ run_success_prefix rfl]
  rfl

lemma parse_successBody (n : Nat) (hn : 0 < n) :
    ∃ lit, parse (successBody n) = some (.object [("input_tokens", .number lit)]) ∧
      ParseInt lit = if n < 2 ^ 63 then some (n : Int) else ParseInt lit := by
  obtain ⟨d, ds, heq, hd, hd0, hds, hv⟩ := toString_nat_spec n hn
  refine ⟨d :: ds, ?_, ?_⟩
  · have hbody : successBody n =
        String.mk ("\x7b\"input_tokens\": ".data ++ (d :: ds) ++ "\x7d".data) := by
      apply String.ext
      simp only [successBody, String.data_append, heq]
    rw [hbody]
    exact parse_numeral_member d ds hd hd0 hds
  · split
    · rename_i hlt
      rw [ParseInt_digits d ds hd hds (by rw [hv]; exact hlt), hv]
    · rfl

lemma run_error_prefix :
    Scanner.init.run "\x7b\"error\":\x7b\"message\":\"".data =
      some ⟨.inString [] none,
        [.objectValue [] (some "message"), .objectValue [] (some "error")], none⟩ := by
  rfl

lemma run_close_message (acc : List Char) :
    Scanner.run ⟨.inString acc none,
        [.objectValue [] (some "message"), .objectValue [] (some "error")], none⟩
        "\"\x7d\x7d".data =
      some ⟨.endTop, [],
        some (.object [("error", .object [("message", .string (String.mk acc.reverse))])])⟩ := by
  rfl

lemma run_errorBody (cs pre post : List Char) (hm : ∀ c ∈ cs, isPlain c = true)
    (hpre : Scanner.init.run pre =
      some ⟨.inString [] none,
        [.objectValue [] (some "message"), .objectValue [] (some "error")], none⟩)
    (hpost : post = "\"\x7d\x7d".data) :
    Scanner.init.run (pre ++ cs ++ post) =
      some ⟨.endTop, [],
        some (.object [("error", .object [("message", .string (String.mk cs))])])⟩ := by
  rw [Scanner.run_append, Scanner.run_append, hpre, Option.some_bind,
    run_inString_plain cs hm, Option.some_bind, hpost, run_close_message]
  simp

lemma parse_errorBody (m : String) (hm : ∀ c ∈ m.data, isPlain c = true) :
    parse (errorBody m) = some (.object [("error", .object [("message", .string m)])]) := by
  unfold parse
  have hdata : (errorBody m).data =
      "\x7b\"error\":\x7b\"message\":\"".data ++ m.data ++ "\"\x7d\x7d".data := by
    simp only [errorBody, String.data_append]
  rw [hdata, run_errorBody m.data _ _ hm run_error_prefix rfl]
  rfl

lemma UnmarshalAPIError_errorBody (m : String) (hm : ∀ c ∈ m.data, isPlain c = true) :
    UnmarshalAPIError (errorBody m) ⟨⟨""⟩⟩ = (⟨⟨m⟩⟩, none) := by
  unfold UnmarshalAPIError
  rw [parse_errorBody m hm]
  rfl

lemma UnmarshalTokenResponse_successBody (n : Nat) (hn : n < 2 ^ 63) :
    UnmarshalTokenResponse (successBody n) ⟨0⟩ = (⟨(n : Int)⟩, none) := by
  rcases Nat.eq_zero_or_pos n with h0 | hpos
  · subst h0; rfl
  · obtain ⟨lit, hp, hi⟩ := parse_successBody n hpos
    rw [if_pos hn] at hi
    unfold UnmarshalTokenResponse
    rw [hp]
    have hk : keyMatches "input_tokens" "input_tokens" = true := by decide
    simp [storeTokenResponse, storeTokenResponseMembers, hk, storeInt, hi]

/-! ### What a decoded `TokenResponse` holds -/

lemma storeInt_saved (v : Value) (cur : Int) (e : JsonError) :
    (storeInt v cur (some e)).2 = some e := by
  unfold storeInt
  split
  · rfl
  · split <;> rfl
  · rfl

lemma storeTokenResponseMembers_saved (ms : List (String × Value)) (t : TokenResponse)
    (e : JsonError) : (storeTokenResponseMembers ms t (some e)).2 = some e := by
  induction ms generalizing t with
  | nil => rfl
  | cons m ms ih =>
    simp only [storeTokenResponseMembers, List.foldl_cons]
    by_cases hk : keyMatches "input_tokens" m.1 = true
    · simp only [hk, if_true]
      have h2 := storeInt_saved m.2 t.InputTokens e
      generalize storeInt m.2 t.InputTokens (some e) = r at h2
      obtain ⟨r1, r2⟩ := r
      simp only at h2
      subst h2
      exact ih _
    · simp only [hk]
      exact ih t

lemma storeInt_none (m : String × Value) (cur : Int)
    (hk : keyMatches "input_tokens" m.1 = true) (h : (storeInt m.2 cur none).2 = none) :
    memberAccepted m ∧ (storeInt m.2 cur none).1 = (memberInt m).getD cur := by
  obtain ⟨k, v⟩ := m
  simp only at hk h ⊢
  cases v with
  | null =>
    refine ⟨fun _ => Or.inl rfl, ?_⟩
    simp [storeInt, memberInt, hk]
  | number lit =>
    cases hp : ParseInt lit with
    | none => simp [storeInt, hp, saveError] at h
    | some n =>
      refine ⟨fun _ => Or.inr ?_, ?_⟩
      · simp [memberInt, hk, hp]
      · simp [storeInt, memberInt, hk, hp]
  | bool b => simp [storeInt, saveError] at h
  | string x => simp [storeInt, saveError] at h
  | array xs => simp [storeInt, saveError] at h
  | object xs => simp [storeInt, saveError] at h

lemma storeTokenResponseMembers_none (ms : List (String × Value)) (t : TokenResponse)
    (h : (storeTokenResponseMembers ms t none).2 = none) :
    (∀ m ∈ ms, memberAccepted m) ∧
      (storeTokenResponseMembers ms t none).1.InputTokens =
        ((ms.filterMap memberInt).getLast?).getD t.InputTokens := by
  induction ms generalizing t with
  | nil => exact ⟨fun m hm => absurd hm (List.not_mem_nil _), rfl⟩
  | cons m ms ih =>
    have hstep : storeTokenResponseMembers (m :: ms) t none =
        storeTokenResponseMembers ms
          (if keyMatches "input_tokens" m.1 = true then
            ⟨(storeInt m.2 t.InputTokens none).1⟩ else t)
          (if keyMatches "input_tokens" m.1 = true then
            (storeInt m.2 t.InputTokens none).2 else none) := by
      simp only [storeTokenResponseMembers, List.foldl_cons]
      by_cases hk : keyMatches "input_tokens" m.1 = true
      · simp only [hk, if_true]
      · simp only [hk]
        rfl
    rw [hstep] at h ⊢
    by_cases hk : keyMatches "input_tokens" m.1 = true
    · simp only [hk, if_true] at h ⊢
      cases hs : (storeInt m.2 t.InputTokens none).2 with
      | some e =>
        rw [hs, storeTokenResponseMembers_saved] at h
        exact absurd h (by simp)
      | none =>
        obtain ⟨hacc, hval⟩ := storeInt_none m t.InputTokens hk hs
        rw [hs] at h
        obtain ⟨hall, hlast⟩ := ih _ h
        refine ⟨?_, ?_⟩
        · intro x hx
          rcases List.mem_cons.mp hx with hx | hx
          · rw [hx]; exact hacc
          · exact hall x hx
        · rw [hlast]
          simp only [hval]
          cases hm : memberInt m with
          | none => simp [List.filterMap_cons, hm]
          | some n => simp [List.filterMap_cons, hm, List.getLast?_cons]
    · rw [if_neg hk, if_neg hk] at h ⊢
      obtain ⟨hall, hlast⟩ := ih _ h
      have hm : memberInt m = none := by simp [memberInt, hk]
      refine ⟨?_, ?_⟩
      · intro x hx
        rcases List.mem_cons.mp hx with hx | hx
        · rw [hx]; intro hk2; exact absurd hk2 hk
        · exact hall x hx
      · rw [hlast]
        simp [List.filterMap_cons, hm]

lemma lastInputTokens_range (ms : List (String × Value)) :
    -(2 ^ 63 : Int) ≤ lastInputTokens ms ∧ lastInputTokens ms < 2 ^ 63 := by
  unfold lastInputTokens
  cases hl : (ms.filterMap memberInt).getLast? with
  | none => simp
  | some n =>
    have hmem : n ∈ ms.filterMap memberInt := List.mem_of_getLast?_eq_some hl
    obtain ⟨m, _, hm⟩ := List.mem_filterMap.mp hmem
    unfold memberInt at hm
    split at hm
    · split at hm
      · exact ParseInt_range _ n hm
      · simp at hm
    · simp at hm

end json

/-! ### Shapes of `main` -/

lemma main_of_text (env : Env) (text : String) (reads : List String)
    (hkey : env.apiKey ≠ "") (hg : gatherInput env = (.ok text, reads)) (hne : text ≠ "") :
    (main env).text = some text ∧
      (main env).sent = (countTokens env.net text env.apiKey env.model).sent := by
  unfold main
  rw [if_neg hkey, hg]
  simp only [if_neg hne]
  cases h : (countTokens env.net text env.apiKey env.model).err <;> exact ⟨rfl, rfl⟩

lemma main_of_empty_text (env : Env) (reads : List String)
    (hkey : env.apiKey ≠ "") (hg : gatherInput env = (.ok "", reads)) :
    main env = ⟨.fatal noInputMessage none, reads, some "", []⟩ := by
  unfold main
  rw [if_neg hkey, hg]
  simp [noInputMessage]

lemma main_cases (env : Env) :
    ((main env).text = none ∧ (main env).sent = []) ∨
    (main env = ⟨.fatal noInputMessage none, (main env).reads, some "", []⟩) ∨
    (∃ text, text ≠ "" ∧ (main env).text = some text ∧
      (main env).sent = (countTokens env.net text env.apiKey env.model).sent) := by
  by_cases hkey : env.apiKey = ""
  · left; unfold main; rw [if_pos hkey]; exact ⟨rfl, rfl⟩
  · rcases hg : gatherInput env with ⟨res, reads⟩
    cases res with
    | error out => left; unfold main; rw [if_neg hkey, hg]; exact ⟨rfl, rfl⟩
    | ok text =>
      by_cases hne : text = ""
      · right; left
        subst hne
        rw [main_of_empty_text env reads hkey hg]
      · right; right
        exact ⟨text, hne, main_of_text env text reads hkey hg hne⟩

/-- C4: for a non-empty text, the one request `countTokens` sends carries the
given model and exactly one message, of role "user", whose content is the
text itself. -/
theorem countTokens_request_payload (net : Network) (text apiKey model : String)
    (h : text ≠ "") :
    (countTokens net text apiKey model).sent.map (fun r => r.payload)
      = [{ Model := model, Messages := [{ Role := "user", Content := text }] }] := by
  unfold countTokens
  rw [if_neg h]
  simp only []
  cases net (newRequest text apiKey model) with
  | error e => rfl
  | ok resp =>
    simp only []
    cases resp.Body with
    | error e => rfl
    | ok body =>
      simp only []
      split
      · split <;> rfl
      · split <;> rfl

theorem countTokens_request_payload_witness :
    (countTokens (fun _ => .error (.text "no route to host")) "héllo" "key" "m").sent.map
        (fun r => r.payload)
      = [{ Model := "m", Messages := [{ Role := "user", Content := "héllo" }] }] :=
  countTokens_request_payload _ "héllo" "key" "m" (by decide)

/-- C3: a 200 response whose body is not well-formed JSON makes `countTokens`
return the error "error parsing response" wrapping a JSON syntax error, with
count 0 next to a non-nil error: never a success. -/
theorem countTokens_malformed_body (net : Network) (text apiKey model : String)
    (resp : HTTPResponse) (body : String) (ht : text ≠ "")
    (hnet : net (newRequest text apiKey model) = .ok resp)
    (hs : resp.StatusCode = StatusOK) (hb : resp.Body = .ok body)
    (hbad : (json.parse body).isNone = true) :
    countTokens net text apiKey model =
      ⟨0, some (.wrap "error parsing response: " (.json .syntaxError)),
        [newRequest text apiKey model]⟩ := by
  rw [countTokens_response net text apiKey model resp body ht hnet hb]
  have hp : json.parse body = none := by
    cases h : json.parse body with
    | none => rfl
    | some v => rw [h] at hbad; simp at hbad
  simp [hs, json.UnmarshalTokenResponse, hp]

theorem countTokens_malformed_body_witness :
    countTokens (constNetwork 200 "200 OK" "not json") "hi" "key" "m" =
      ⟨0, some (.wrap "error parsing response: " (.json .syntaxError)),
        [newRequest "hi" "key" "m"]⟩ :=
  countTokens_malformed_body (constNetwork 200 "200 OK" "not json") "hi" "key" "m"
    ⟨200, "200 OK", .ok "not json"⟩ "not json" (by decide) rfl rfl rfl (by decide)

/-- C5: with `p` piped and the file arguments readable with contents `cs`, in
that order, the combined text is `p` followed directly by the contents joined
by single newlines; it is the value of `text` in `main` once the API key is
set. -/
theorem combined_text_is_piped_then_files (env : Env) (p : String) (cs : List String)
    (hstdin : env.stdin = .piped (.ok p))
    (hfiles : List.Forall₂ (fun path c => env.fs path = .ok c) env.args cs) :
    (gatherInput env).1 = .ok (p ++ joinedByNewline cs) ∧
      (env.apiKey ≠ "" → (main env).text = some (p ++ joinedByNewline cs)) := by
  have hg := gatherInput_readable env p cs (by rw [hstdin]; rfl) hfiles
  refine ⟨by rw [hg], fun hkey => ?_⟩
  by_cases hne : p ++ joinedByNewline cs = ""
  · rw [hne] at hg ⊢
    rw [main_of_empty_text env env.args hkey hg]
  · exact (main_of_text env _ env.args hkey hg hne).1

theorem combined_text_is_piped_then_files_witness :
    (gatherInput helloEnv).1 = .ok "Hello world" ∧
      (helloEnv.apiKey ≠ "" → (main helloEnv).text = some "Hello world") :=
  combined_text_is_piped_then_files helloEnv "Hello " ["world"] rfl
    (List.Forall₂.cons rfl List.Forall₂.nil)

/-- C6: when the first unreadable path `bad` comes after the readable paths
`pre`, `readFiles` returns the empty text and an error naming `bad`, and has
opened `pre` and `bad` and nothing after; when every path is readable it
returns no error. -/
theorem readFiles_first_unreadable (fs : FileSystem) :
    (∀ (pre post : List String) (bad : String) (e : GoError),
      (∀ p ∈ pre, ∃ c, fs p = .ok c) → fs bad = .error e →
        readFiles fs (pre ++ bad :: post) =
          ⟨"", some (.wrap ("error reading file " ++ bad ++ ": ") e), pre ++ [bad]⟩) ∧
    (∀ paths : List String, (∀ p ∈ paths, ∃ c, fs p = .ok c) →
      (readFiles fs paths).err = none) := by
  constructor
  · intro pre post bad e hpre hbad
    rw [readFiles, readFilesLoop_unreadable fs pre post bad e hpre hbad]
    simp
  · intro paths h
    obtain ⟨cs, hcs⟩ := readable_forall₂ fs paths h
    rw [readFiles, readFilesLoop_readable fs paths cs hcs]

theorem readFiles_first_unreadable_witness :
    readFiles (listFS [("a", "1"), ("c", "3")]) (["a"] ++ "b" :: ["c"]) =
        ⟨"", some (.wrap ("error reading file " ++ "b" ++ ": ")
          (.text "open b: no such file or directory")), ["a"] ++ ["b"]⟩ ∧
      (readFiles (listFS [("a", "1"), ("c", "3")]) ["a", "c"]).err = none :=
  ⟨(readFiles_first_unreadable (listFS [("a", "1"), ("c", "3")])).1 ["a"] ["c"] "b"
      (.text "open b: no such file or directory")
      (fun p hp => ⟨"1", by rw [List.mem_singleton.mp hp]; rfl⟩) rfl,
    (readFiles_first_unreadable (listFS [("a", "1"), ("c", "3")])).2 ["a", "c"]
      (fun p hp => by
        simp only [List.mem_cons, List.mem_singleton, List.not_mem_nil, or_false] at hp
        rcases hp with h | h
        · exact ⟨"1", by rw [h]; rfl⟩
        · exact ⟨"3", by rw [h]; rfl⟩)⟩

/-- C7 fails as stated: with nothing piped and no file argument the combined
text is empty, but when the API key is not set the run ends with the
missing-key error and not with the no-input error. -/
theorem no_request_for_empty_text_counterexample :
    noKeyEnv.args = [] ∧ readStdin noKeyEnv.stdin = ("", none) ∧
    (gatherInput noKeyEnv).1 = .ok "" ∧
    main noKeyEnv =
      ⟨.fatal "Missing Anthropic API key. Set ANTHROPIC_API_KEY environment variable." none,
        [], none, []⟩ ∧
    (main noKeyEnv).outcome ≠ .fatal noInputMessage none := by
  decide

/-- C7, amended: no request is sent for an empty text.  When the API key is
set and the combined text is empty, in particular with nothing piped and no
file argument, the run ends with the no-input error and no request; when the
API key is not set the run ends with the missing-key error and no request;
`countTokens` on the empty text returns an error without sending; every
request `main` sends carries a non-empty content. -/
theorem no_request_for_empty_text (env : Env) :
    (env.apiKey ≠ "" → (gatherInput env).1 = .ok "" →
      (main env).outcome = .fatal noInputMessage none ∧ (main env).text = some "" ∧
        (main env).sent = []) ∧
    (env.apiKey ≠ "" → env.args = [] → env.stdin = .terminal →
      (gatherInput env).1 = .ok "" ∧
        (main env).outcome = .fatal noInputMessage none ∧ (main env).sent = []) ∧
    (env.apiKey = "" →
      main env =
        ⟨.fatal "Missing Anthropic API key. Set ANTHROPIC_API_KEY environment variable." none,
          [], none, []⟩) ∧
    ((main env).text = some "" →
      (main env).outcome = .fatal noInputMessage none ∧ (main env).sent = []) ∧
    (∀ (net : Network) (apiKey model : String),
      countTokens net "" apiKey model = ⟨0, some (.text "empty input text"), []⟩) ∧
    (∀ r ∈ (main env).sent, ∀ m ∈ r.payload.Messages, m.Content ≠ "") := by
  refine ⟨?_, ?_, ?_, ?_, fun net apiKey model => countTokens_empty net apiKey model, ?_⟩
  · intro hkey hg
    rcases hgi : gatherInput env with ⟨res, reads⟩
    rw [hgi] at hg
    simp only at hg
    subst hg
    rw [main_of_empty_text env reads hkey hgi]
    exact ⟨rfl, rfl, rfl⟩
  · intro hkey hargs hstdin
    have hg : gatherInput env = (.ok "", env.args) := by
      have := gatherInput_readable env "" [] (by rw [hstdin]; rfl)
        (by rw [hargs]; exact List.Forall₂.nil)
      simpa [joinedByNewline] using this
    refine ⟨by rw [hg], ?_⟩
    rw [main_of_empty_text env env.args hkey hg]
    exact ⟨rfl, rfl⟩
  · intro hkey
    unfold main
    rw [if_pos hkey]
  · intro h
    rcases main_cases env with ⟨h0, _⟩ | h1 | ⟨text, hne, ht, _⟩
    · rw [h0] at h; simp at h
    · rw [h1]; exact ⟨rfl, rfl⟩
    · rw [ht] at h
      simp only [Option.some.injEq] at h
      exact absurd h hne
  · intro r hr m hm
    rcases main_cases env with ⟨_, h0⟩ | h1 | ⟨text, hne, _, hs⟩
    · rw [h0] at hr; simp at hr
    · rw [h1] at hr; simp at hr
    · rw [hs] at hr
      rcases countTokens_sent_subset env.net text env.apiKey env.model with h0 | ⟨_, h1⟩
      · rw [h0] at hr; simp at hr
      · rw [h1] at hr
        simp only [List.mem_singleton] at hr
        subst hr
        simp only [newRequest, List.mem_singleton] at hm
        subst hm
        exact hne

theorem no_request_for_empty_text_witness :
    noInputEnv.apiKey ≠ "" ∧ (gatherInput noInputEnv).1 = .ok "" ∧
      (main noInputEnv).outcome = .fatal noInputMessage none ∧
      (main noInputEnv).text = some "" ∧ (main noInputEnv).sent = [] :=
  ⟨by decide, by decide,
    (no_request_for_empty_text noInputEnv).1 (by decide) (by decide)⟩

/-- C8 fails as stated: with nothing piped and two readable empty files the
combined text is one newline, a request is sent and the run succeeds; and
with no input and no API key the run ends with the missing-key error. -/
theorem empty_sources_counterexample :
    (∀ p ∈ twoEmptyFilesEnv.args, twoEmptyFilesEnv.fs p = .ok "") ∧
    readStdin twoEmptyFilesEnv.stdin = ("", none) ∧
    main twoEmptyFilesEnv =
      ⟨.done "Token count: 1\n", ["a.txt", "b.txt"], some "\n",
        [newRequest "\n" "key" defaultModel]⟩ ∧
    (main noKeyEnv).outcome =
      .fatal "Missing Anthropic API key. Set ANTHROPIC_API_KEY environment variable." none := by
  decide

/-- C8, amended: when the API key is set, nothing is piped or the piped input
is empty, and at most one file is named, readable and empty, the run ends
with the no-input error after opening that file, and no request is sent. -/
theorem empty_sources_no_input_error (env : Env) (hkey : env.apiKey ≠ "")
    (hstdin : env.stdin = .terminal ∨ env.stdin = .piped (.ok ""))
    (hcount : env.args.length ≤ 1) (hfiles : ∀ p ∈ env.args, env.fs p = .ok "") :
    main env = ⟨.fatal noInputMessage none, env.args, some "", []⟩ := by
  have hs : readStdin env.stdin = ("", none) := by
    rcases hstdin with h | h <;> rw [h] <;> rfl
  have hg : gatherInput env = (.ok "", env.args) := by
    cases hargs : env.args with
    | nil =>
      have := gatherInput_readable env "" [] hs (by rw [hargs]; exact List.Forall₂.nil)
      simpa [joinedByNewline, hargs] using this
    | cons a rest =>
      have hrest : rest = [] := by
        cases rest with
        | nil => rfl
        | cons b more => rw [hargs] at hcount; simp at hcount
      subst hrest
      have ha : env.fs a = .ok "" := hfiles a (by rw [hargs]; exact List.mem_cons_self _ _)
      have := gatherInput_readable env "" [""] hs
        (by rw [hargs]; exact List.Forall₂.cons ha List.Forall₂.nil)
      simpa [joinedByNewline, hargs] using this
  exact main_of_empty_text env env.args hkey hg

theorem empty_sources_no_input_error_witness :
    main { twoEmptyFilesEnv with args := ["a.txt"] } =
      ⟨.fatal noInputMessage none, ["a.txt"], some "", []⟩ :=
  empty_sources_no_input_error { twoEmptyFilesEnv with args := ["a.txt"] } (by decide)
    (Or.inl rfl) (by decide) (fun p hp => by rw [List.mem_singleton.mp hp]; rfl)

/-- C10: in verbose mode the model line, the length line and the count line
are printed in that order, but the length printed for the one-character text
"é" is 2, its number of bytes. -/
theorem verbose_length_counts_bytes :
    main verboseEnv =
      ⟨.done "Model: m\nInput length: 2 characters\nToken count: 7\n", [], some "é",
        [newRequest "é" "key" "m"]⟩ ∧
    "é".length = 1 := by
  decide

/-- C1 fails as stated: the body with the count 2^63 is answered with the
error "error parsing response", because the number does not fit the Go type
`int`. -/
theorem countTokens_success_counterexample :
    json.successBody (2 ^ 63) = "\x7b\"input_tokens\": 9223372036854775808\x7d" ∧
    countTokens (constNetwork 200 "200 OK" (json.successBody (2 ^ 63))) "hi" "key" "m" =
      ⟨0, some (.wrap "error parsing response: "
          (.json (.unmarshalTypeError "number 9223372036854775808"))),
        [newRequest "hi" "key" "m"]⟩ := by
  decide

/-- C1, amended: for a non-empty text and every count `n` below 2^63, a 200
response with the body `successBody n` makes `countTokens` return exactly
`n` and no error, after one request. -/
theorem countTokens_success (net : Network) (text apiKey model : String)
    (resp : HTTPResponse) (n : Nat) (ht : text ≠ "") (hn : n < 2 ^ 63)
    (hnet : net (newRequest text apiKey model) = .ok resp)
    (hs : resp.StatusCode = StatusOK) (hb : resp.Body = .ok (json.successBody n)) :
    countTokens net text apiKey model = ⟨(n : Int), none, [newRequest text apiKey model]⟩ := by
  rw [countTokens_response net text apiKey model resp _ ht hnet hb,
    json.UnmarshalTokenResponse_successBody n hn]
  simp [hs]

theorem countTokens_success_witness :
    countTokens (constNetwork 200 "200 OK" "\x7b\"input_tokens\": 42\x7d") "hi" "key" "m" =
      ⟨((42 : Nat) : Int), none, [newRequest "hi" "key" "m"]⟩ :=
  countTokens_success (constNetwork 200 "200 OK" "\x7b\"input_tokens\": 42\x7d") "hi" "key" "m"
    ⟨200, "200 OK", .ok "\x7b\"input_tokens\": 42\x7d"⟩ 42 (by decide) (by decide) rfl rfl
    (by decide)

/-- C2: for a response whose status is not 200, `countTokens` returns count 0
with an error that is never the parse error: "API error: " followed by the
decoded message when the body decodes without error to a non-empty message,
and "API error: " followed by the status line in every other case.  The body
`errorBody m` of a non-empty message `m` written without escapes gives the
text with `m` itself, and a body that is not well-formed JSON gives the status
line. -/
theorem countTokens_api_error (net : Network) (text apiKey model : String)
    (resp : HTTPResponse) (body : String) (ht : text ≠ "")
    (hnet : net (newRequest text apiKey model) = .ok resp)
    (hs : resp.StatusCode ≠ StatusOK) (hb : resp.Body = .ok body) :
    (countTokens net text apiKey model).count = 0 ∧
    (∀ e, (countTokens net text apiKey model).err ≠ some (.wrap "error parsing response: " e)) ∧
    (countTokens net text apiKey model).err =
      some (.text ("API error: " ++
        (if (json.UnmarshalAPIError body ⟨⟨""⟩⟩).2 = none ∧
            (json.UnmarshalAPIError body ⟨⟨""⟩⟩).1.Error.Message ≠ ""
          then (json.UnmarshalAPIError body ⟨⟨""⟩⟩).1.Error.Message else resp.Status))) ∧
    (∀ m : String, m ≠ "" → (∀ c ∈ m.data, json.isPlain c = true) → body = json.errorBody m →
      (countTokens net text apiKey model).err = some (.text ("API error: " ++ m))) ∧
    ((json.parse body).isNone = true →
      (countTokens net text apiKey model).err = some (.text ("API error: " ++ resp.Status))) := by
  have hshape := countTokens_response net text apiKey model resp body ht hnet hb
  rw [if_pos hs] at hshape
  have herr : (countTokens net text apiKey model).err =
      some (.text ("API error: " ++
        (if (json.UnmarshalAPIError body ⟨⟨""⟩⟩).2 = none ∧
            (json.UnmarshalAPIError body ⟨⟨""⟩⟩).1.Error.Message ≠ ""
          then (json.UnmarshalAPIError body ⟨⟨""⟩⟩).1.Error.Message else resp.Status))) := by
    rw [hshape]
    split <;> rfl
  refine ⟨?_, ?_, herr, ?_, ?_⟩
  · rw [hshape]
    split <;> rfl
  · intro e
    rw [herr]
    simp
  · intro m hm hplain hbody
    rw [herr, hbody, json.UnmarshalAPIError_errorBody m hplain]
    simp [hm]
  · intro hbad
    have hp : json.parse body = none := by
      cases h : json.parse body with
      | none => rfl
      | some v => rw [h] at hbad; simp at hbad
    rw [herr]
    simp [json.UnmarshalAPIError, hp]

theorem countTokens_api_error_witness :
    (countTokens (constNetwork 400 "400 Bad Request" (json.errorBody "invalid model"))
        "hi" "key" "m").err = some (.text ("API error: " ++ "invalid model")) :=
  (countTokens_api_error (constNetwork 400 "400 Bad Request" (json.errorBody "invalid model"))
    "hi" "key" "m" ⟨400, "400 Bad Request", .ok (json.errorBody "invalid model")⟩
    (json.errorBody "invalid model") (by decide) rfl (by decide) rfl).2.2.2.1
    "invalid model" (by decide) (by decide) rfl

/-- C9 fails as stated: a 200 response with the body of an empty object, or
with the body `null`, gives the count 0 and no error although no
`input_tokens` field is there, and a negative `input_tokens` is returned as
it is. -/
theorem count_without_field_counterexample :
    countTokens (constNetwork 200 "200 OK" "\x7b\x7d") "hi" "key" "m" =
      ⟨0, none, [newRequest "hi" "key" "m"]⟩ ∧
    countTokens (constNetwork 200 "200 OK" "null") "hi" "key" "m" =
      ⟨0, none, [newRequest "hi" "key" "m"]⟩ ∧
    countTokens (constNetwork 200 "200 OK" "\x7b\"input_tokens\": -5\x7d") "hi" "key" "m" =
      ⟨-5, none, [newRequest "hi" "key" "m"]⟩ := by
  decide

/-- C9, amended: when `countTokens` returns no error, the text is not empty,
the one request was answered with status 200 and a body that is well-formed
JSON; its value is `null` and the count is 0, or it is an object in which
every `input_tokens` member is `null` or an integer literal that fits in 64
bits, and the count is the integer of the last such member, 0 when there is
none; the count lies in the range of a 64-bit integer and may be negative. -/
theorem count_only_from_valid_response (net : Network) (text apiKey model : String)
    (h : (countTokens net text apiKey model).err = none) :
    text ≠ "" ∧
    ∃ resp body v, net (newRequest text apiKey model) = .ok resp ∧
      resp.StatusCode = StatusOK ∧ resp.Body = .ok body ∧ json.parse body = some v ∧
      ((v = .null ∧ (countTokens net text apiKey model).count = 0) ∨
        (∃ ms, v = .object ms ∧ (∀ m ∈ ms, json.memberAccepted m) ∧
          (countTokens net text apiKey model).count = json.lastInputTokens ms)) ∧
      -(2 ^ 63 : Int) ≤ (countTokens net text apiKey model).count ∧
      (countTokens net text apiKey model).count < 2 ^ 63 := by
  have ht : text ≠ "" := by
    intro h0
    rw [h0, countTokens_empty] at h
    simp at h
  refine ⟨ht, ?_⟩
  cases hnet : net (newRequest text apiKey model) with
  | error e =>
    simp [countTokens, ht, hnet] at h
  | ok resp =>
    cases hb : resp.Body with
    | error e => simp [countTokens, ht, hnet, hb] at h
    | ok body =>
      have hshape := countTokens_response net text apiKey model resp body ht hnet hb
      by_cases hs : resp.StatusCode = StatusOK
      · rw [if_neg (not_not.mpr hs)] at hshape
        cases hp : json.parse body with
        | none =>
          rw [hshape] at h
          simp [json.UnmarshalTokenResponse, hp] at h
        | some v =>
          have hu : json.UnmarshalTokenResponse body ⟨0⟩ = json.storeTokenResponse v ⟨0⟩ none := by
            simp [json.UnmarshalTokenResponse, hp]
          rw [hu] at hshape
          cases hd : (json.storeTokenResponse v ⟨0⟩ none).2 with
          | some e =>
            rw [hshape, hd] at h
            simp at h
          | none =>
            have hcount : (countTokens net text apiKey model).count =
                (json.storeTokenResponse v ⟨0⟩ none).1.InputTokens := by
              rw [hshape, hd]
            refine ⟨resp, body, v, rfl, hs, hb, hp, ?_⟩
            rw [hcount]
            cases v with
            | null =>
              refine ⟨Or.inl ⟨rfl, rfl⟩, ?_, ?_⟩ <;> simp [json.storeTokenResponse]
            | object ms =>
              have hd2 : (json.storeTokenResponseMembers ms ⟨0⟩ none).2 = none := hd
              obtain ⟨hall, hlast⟩ := json.storeTokenResponseMembers_none ms ⟨0⟩ hd2
              have hval : (json.storeTokenResponse (.object ms) ⟨0⟩ none).1.InputTokens =
                  json.lastInputTokens ms := hlast
              rw [hval]
              exact ⟨Or.inr ⟨ms, rfl, hall, rfl⟩, json.lastInputTokens_range ms⟩
            | bool b => simp [json.storeTokenResponse, json.saveError] at hd
            | number lit => simp [json.storeTokenResponse, json.saveError] at hd
            | string x => simp [json.storeTokenResponse, json.saveError] at hd
            | array xs => simp [json.storeTokenResponse, json.saveError] at hd
      · rw [if_pos hs] at hshape
        rw [hshape] at h
        split at h <;> simp at h

theorem count_only_from_valid_response_witness :
    "hi" ≠ "" ∧
    ∃ resp body v, constNetwork 200 "200 OK" "\x7b\"input_tokens\": -5\x7d"
        (newRequest "hi" "key" "m") = .ok resp ∧
      resp.StatusCode = StatusOK ∧ resp.Body = .ok body ∧ json.parse body = some v ∧
      ((v = .null ∧ (countTokens (constNetwork 200 "200 OK" "\x7b\"input_tokens\": -5\x7d")
          "hi" "key" "m").count = 0) ∨
        (∃ ms, v = .object ms ∧ (∀ m ∈ ms, json.memberAccepted m) ∧
          (countTokens (constNetwork 200 "200 OK" "\x7b\"input_tokens\": -5\x7d")
            "hi" "key" "m").count = json.lastInputTokens ms)) ∧
      -(2 ^ 63 : Int) ≤ (countTokens (constNetwork 200 "200 OK" "\x7b\"input_tokens\": -5\x7d")
          "hi" "key" "m").count ∧
      (countTokens (constNetwork 200 "200 OK" "\x7b\"input_tokens\": -5\x7d")
          "hi" "key" "m").count < 2 ^ 63 :=
  count_only_from_valid_response (constNetwork 200 "200 OK" "\x7b\"input_tokens\": -5\x7d")
    "hi" "key" "m" (by decide)

end TokenCounter
